import Mathlib

/-!
Shallow embedding of the `upsolver` PEP-249 adapter (files
`upsolver/connection.py`, `upsolver/cursor.py`) and of the stub variant in
`pep249/connection.py`.  Remote response payloads are abstracted by a type
parameter `α`; a response record is a mapping carrying an optional
discriminator field `kind`, an optional `message` payload, and arbitrary
further fields.  Python exceptions (`InterfaceError`, `NotSupportedError`)
are modelled with an `Except` result type; Python mutation is modelled by
explicit state passing.
-/

namespace Upsolver

/-- The two exception classes of `upsolver/exceptions.py` that the embedded
code can raise. -/
inductive DBError where
  | interfaceError
  | notSupportedError
deriving DecidableEq

/-- A response record produced by the query execution service: a mapping
with an optional discriminator field `kind` (absent keys read as `None` via
`dict.get`), an optional `message` payload, and the remaining fields. -/
structure Record (α : Type) where
  kind : Option String
  message : Option α
  extra : List (String × α)
deriving DecidableEq

/-- A row handed to the caller by `Connection.query`: either an extracted
`message` payload (`res_part.get("message")`, which may be `None`) or the
raw record passed through unchanged. -/
inductive Row (α : Type) where
  | payload : Option α → Row α
  | raw : Record α → Row α
deriving DecidableEq

/-- State of `upsolver.connection.Connection`: `_api` (set to `None` by
`close`) abstracted as the page-sequence producer `execute(command,
timeout)` of the query execution service, and `_timeout_sec`. -/
structure Connection (α : Type) where
  api : Option (String → Nat → List (List (Record α)))
  timeoutSec : Nat

/-- `Connection.close`: sets `self._api = None`.  The source has no closed
guard and no raise path, so the embedding is a total function. -/
def Connection.close (conn : Connection α) : Connection α :=
  { conn with api := none }

/-- `Connection.commit`: the body is `pass`; no guard, no raise path. -/
def Connection.commit (conn : Connection α) : Connection α :=
  conn

/-- `Connection.rollback`: unconditionally `raise NotSupportedError`. -/
def Connection.rollback (_conn : Connection α) : Except DBError Unit :=
  Except.error DBError.notSupportedError

/-- `Connection.query`: raises `InterfaceError` when `self._api is None`;
otherwise walks the page sequence, appending for each record either its
`message` payload (when `kind == "upsolver_query_response"`) or the record
itself. -/
def Connection.query (conn : Connection α) (command : String) :
    Except DBError (List (Row α)) :=
  match conn.api with
  | none => Except.error DBError.interfaceError
  | some api =>
      Except.ok <| (api command conn.timeoutSec).foldl
        (fun responses res =>
          res.foldl
            (fun responses resPart =>
              if resPart.kind = some "upsolver_query_response" then
                responses ++ [Row.payload resPart.message]
              else
                responses ++ [Row.raw resPart])
            responses)
        []

/-- The response classifier: one record becomes either its `message`
payload (query-response kind) or the raw record unchanged. -/
def classifyRecord (r : Record α) : Row α :=
  if r.kind = some "upsolver_query_response" then Row.payload r.message
  else Row.raw r

/-- State of `upsolver.cursor.Cursor`: `_connection` (dropped by `close`),
`_result` (`None` until an `execute` succeeds), `_iterator` (`None` until
an `execute` succeeds; afterwards the not-yet-consumed suffix of the result
list, standing for `iter(result)` at the current position), `_arraysize`
(the attribute `getattr` falls back from, absent until first assigned), and
the closed flag kept by the transaction context mixin. -/
structure Cursor (α : Type) where
  connection : Option (Connection α)
  result : Option (List (Row α))
  iterator : Option (List (Row α))
  arraysizeVal : Option Int
  closed : Bool

/-- `Connection.cursor`: raises `InterfaceError` when `self._api is None`;
otherwise `BaseConnection.cursor(self)` returns `Cursor(self)`, whose
`__init__` sets `_connection`, `_result = None`, `_iterator = None`. -/
def Connection.cursor (conn : Connection α) : Except DBError (Cursor α) :=
  match conn.api with
  | none => Except.error DBError.interfaceError
  | some _ =>
      Except.ok
        { connection := some conn
          result := none
          iterator := none
          arraysizeVal := none
          closed := false }

/-- The `arraysize` property getter: `getattr(self, "_arraysize", 1)`. -/
def Cursor.arraysize (c : Cursor α) : Int :=
  c.arraysizeVal.getD 1

/-- The `arraysize` property setter: `setattr(self, "_arraysize", value)`,
with no validation of the value. -/
def Cursor.setArraysize (c : Cursor α) (value : Int) : Cursor α :=
  { c with arraysizeVal := some value }

/-- `Cursor._query`: raises `InterfaceError` when `not self._connection`
(the connection reference has been dropped); otherwise delegates to
`self._connection.query(q)`. -/
def Cursor.runQuery (c : Cursor α) (q : String) : Except DBError (List (Row α)) :=
  match c.connection with
  | none => Except.error DBError.interfaceError
  | some conn => conn.query q

/-- `Cursor.execute`: the `parameters` argument is ignored (the source
carries a `TODO: handle parameters`); runs `self._query(operation)`, stores
the result as `_result`, resets `_iterator = iter(result)`, and returns the
result. -/
def Cursor.execute (c : Cursor α) (operation : String)
    (_parameters : List String) : Except DBError (List (Row α) × Cursor α) :=
  match c.runQuery operation with
  | Except.error e => Except.error e
  | Except.ok result =>
      Except.ok (result, { c with result := some result, iterator := some result })

/-- `Cursor.rowcount`: `-1` when `self._result is None`, otherwise
`len(self._result)`. -/
def Cursor.rowcount (c : Cursor α) : Int :=
  match c.result with
  | none => -1
  | some r => r.length

/-- `Cursor.fetchone`: raises `InterfaceError` when `self._iterator is
None`; otherwise `next(self._iterator)`, returning `None` when the iterator
is exhausted (`StopIteration`). -/
def Cursor.fetchone (c : Cursor α) : Except DBError (Option (Row α) × Cursor α) :=
  match c.iterator with
  | none => Except.error DBError.interfaceError
  | some [] => Except.ok (none, c)
  | some (r :: rest) => Except.ok (some r, { c with iterator := some rest })

/-- The loop body of `Cursor.fetchmany`: `for _ in range(n)` calling
`self.fetchone()`, breaking at the first `None` and appending each row to
`result`. -/
def fetchManyLoop (n : Nat) (c : Cursor α) (acc : List (Row α)) :
    Except DBError (List (Row α) × Cursor α) :=
  match n with
  | 0 => Except.ok (acc, c)
  | Nat.succ m =>
      match c.fetchone with
      | Except.error e => Except.error e
      | Except.ok (none, c2) => Except.ok (acc, c2)
      | Except.ok (some row, c2) => fetchManyLoop m c2 (acc ++ [row])

/-- `Cursor.fetchmany`: raises `InterfaceError` when `self._iterator is
None`; otherwise loops `range(size or self.arraysize)` times (`size or
arraysize` is `arraysize` when `size` is `None` or `0`, else `size`;
`range` of a negative bound is empty, modelled by `Int.toNat`). -/
def Cursor.fetchmany (c : Cursor α) (size : Option Int) :
    Except DBError (List (Row α) × Cursor α) :=
  match c.iterator with
  | none => Except.error DBError.interfaceError
  | some _ =>
      fetchManyLoop
        (match size with
         | none => c.arraysize
         | some s => if s = 0 then c.arraysize else s).toNat
        c []

/-- The loop body of `Cursor.fetchall`: `while True` calling
`self.fetchone()`, breaking at the first `None`; `fuel` is a termination
bound never reached because the iterator is exhausted first. -/
def fetchAllLoop (fuel : Nat) (c : Cursor α) (acc : List (Row α)) :
    Except DBError (List (Row α) × Cursor α) :=
  match fuel with
  | 0 => Except.ok (acc, c)
  | Nat.succ m =>
      match c.fetchone with
      | Except.error e => Except.error e
      | Except.ok (none, c2) => Except.ok (acc, c2)
      | Except.ok (some row, c2) => fetchAllLoop m c2 (acc ++ [row])

/-- `Cursor.fetchall`: raises `InterfaceError` when `self._iterator is
None`; otherwise drains every remaining row via the `while True` loop. -/
def Cursor.fetchall (c : Cursor α) : Except DBError (List (Row α) × Cursor α) :=
  match c.iterator with
  | none => Except.error DBError.interfaceError
  | some rows => fetchAllLoop (rows.length + 1) c []

/-- `Cursor.executemany`: unconditionally `raise NotSupportedError`. -/
def Cursor.executemany (_c : Cursor α) (_operation : String)
    (_seqOfParameters : List (List String)) : Except DBError Unit :=
  Except.error DBError.notSupportedError

/-- `Cursor.nextset`: unconditionally `raise NotSupportedError`. -/
def Cursor.nextset (_c : Cursor α) : Except DBError Unit :=
  Except.error DBError.notSupportedError

/-- Driver for the fetchone exhaustion property: call `Cursor.fetchone`
`k` times, collecting the (optional) results in order. -/
def fetchOnes (k : Nat) (c : Cursor α) :
    Except DBError (List (Option (Row α)) × Cursor α) :=
  match k with
  | 0 => Except.ok ([], c)
  | Nat.succ m =>
      match c.fetchone with
      | Except.error e => Except.error e
      | Except.ok (r, c2) =>
          match fetchOnes m c2 with
          | Except.error e => Except.error e
          | Except.ok (rs, c3) => Except.ok (r :: rs, c3)

/-- Number of rows the cursor's iterator has not yet produced (`0` when no
iterator exists). -/
def iterLen (c : Cursor α) : Nat :=
  match c.iterator with
  | none => 0
  | some rows => rows.length

/-- Driver for the fetchmany batching property, with an explicit fuel
bound: call `Cursor.fetchmany n` repeatedly, collecting each non-empty
batch, stopping at the first empty batch or error. -/
def fetchBatchesAux (fuel : Nat) (n : Int) (c : Cursor α) :
    List (List (Row α)) :=
  match fuel with
  | 0 => []
  | Nat.succ m =>
      match c.fetchmany (some n) with
      | Except.error _ => []
      | Except.ok ([], _) => []
      | Except.ok (b :: bs, c2) => (b :: bs) :: fetchBatchesAux m n c2

/-- The batches obtained by repeatedly calling `Cursor.fetchmany n` until
an empty result: each successful non-empty batch consumes at least one row
of the iterator, so `iterLen c + 1` calls always suffice to reach the
terminating empty batch. -/
def fetchBatches (n : Int) (c : Cursor α) : List (List (Row α)) :=
  fetchBatchesAux (iterLen c + 1) n c

/-- Reference chunking of a list into consecutive pieces of size `n`
(intended for `0 < n`; the final piece is the possibly-shorter remainder). -/
def chunkList (n : Nat) : List β → List (List β)
  | [] => []
  | x :: xs => ((x :: xs).take n) :: chunkList n (xs.drop (n - 1))
termination_by l => l.length
decreasing_by simp; omega

/-- Modelled from the spec: `TransactionFreeContextMixin.close` lives in
`upsolver/transactions.py`, which is not under `src/`.  Per the spec,
`close` marks the resource closed, and a second `close` "must itself fail
with a state error"; none of the cursor operations above read the closed
flag. -/
def transactionFreeContextClose (c : Cursor α) : Except DBError (Cursor α) :=
  if c.closed then Except.error DBError.interfaceError
  else Except.ok { c with closed := true }

/-- `Cursor.close`: sets `self._connection = None`, then calls
`TransactionFreeContextMixin.close(self)`.  It does not touch `_result` or
`_iterator`. -/
def Cursor.close (c : Cursor α) : Except DBError (Cursor α) :=
  transactionFreeContextClose { c with connection := none }

/-- A concrete query-response record (payload `1`). -/
def recA : Record Nat :=
  { kind := some "upsolver_query_response", message := some 1, extra := [] }

/-- A concrete record of another kind, passed through unchanged. -/
def recB : Record Nat :=
  { kind := some "progress", message := none, extra := [("pct", 50)] }

/-- A concrete record with no `kind` field at all. -/
def recC : Record Nat :=
  { kind := none, message := some 3, extra := [] }

/-- A concrete page sequence: two pages, three records. -/
def apiEx : String → Nat → List (List (Record Nat)) :=
  fun _ _ => [[recA, recB], [recC]]

/-- A concrete open connection over `apiEx`. -/
def connEx : Connection Nat :=
  { api := some apiEx, timeoutSec := 30 }

/-- The rows `connEx.query` produces from `apiEx`. -/
def rowsEx : List (Row Nat) :=
  [Row.payload (some 1), Row.raw recB, Row.raw recC]

/-- A concrete fresh cursor on `connEx`. -/
def curEx : Cursor Nat :=
  { connection := some connEx
    result := none
    iterator := none
    arraysizeVal := none
    closed := false }

/-- The state of `curEx` right after a successful `execute`. -/
def cur1Ex : Cursor Nat :=
  { curEx with result := some rowsEx, iterator := some rowsEx }

/-- The state of `cur1Ex` with its iterator fully drained. -/
def curDrainedEx : Cursor Nat :=
  { cur1Ex with iterator := some [] }

/-- The state of `cur1Ex` after `Cursor.close`: the connection reference is
dropped and the mixin's closed flag is set; `_result` and `_iterator` are
untouched. -/
def curClosedEx : Cursor Nat :=
  { cur1Ex with connection := none, closed := true }

end Upsolver

namespace Pep249

/-- State of `pep249.connection.Connection`: just the stored token and API
URL. -/
structure Connection where
  token : String
  apiUrl : String
deriving DecidableEq

/-- `pep249` variant `Connection.rollback`: the body only logs and prints;
it returns normally (no raise path). -/
def Connection.rollback (_conn : Connection) : Except Upsolver.DBError Unit :=
  Except.ok ()

/-- `pep249` variant `Connection.close`: the body only logs and prints and
then `pass`; it returns the state unchanged. -/
def Connection.close (conn : Connection) : Connection :=
  conn

/-- `pep249` variant `Connection.query`: logs, prints, and returns the SQL
text itself. -/
def Connection.query (_conn : Connection) (sql : String) : String :=
  sql

end Pep249

namespace Upsolver

theorem Cursor.eta_iterator (c : Cursor α) (rows : List (Row α))
    (h : c.iterator = some rows) : { c with iterator := some rows } = c := by
  cases c
  cases h
  rfl

theorem fetchone_of_nil (c : Cursor α) (h : c.iterator = some []) :
    c.fetchone = Except.ok (none, c) := by
  unfold Cursor.fetchone
  rw [h]

theorem fetchone_of_cons (c : Cursor α) (r : Row α) (rest : List (Row α))
    (h : c.iterator = some (r :: rest)) :
    c.fetchone = Except.ok (some r, { c with iterator := some rest }) := by
  unfold Cursor.fetchone
  rw [h]

theorem fetchManyLoop_spec (n : Nat) (c : Cursor α) (rows acc : List (Row α))
    (h : c.iterator = some rows) :
    fetchManyLoop n c acc =
      Except.ok (acc ++ rows.take n, { c with iterator := some (rows.drop n) }) := by
  induction n generalizing c rows acc with
  | zero =>
      simp [fetchManyLoop, Cursor.eta_iterator c rows h]
  | succ m ih =>
      cases rows with
      | nil =>
          rw [fetchManyLoop, fetchone_of_nil c h]
          simp [Cursor.eta_iterator c [] h]
      | cons r rest =>
          rw [fetchManyLoop, fetchone_of_cons c r rest h]
          dsimp only
          rw [ih { c with iterator := some rest } rest (acc ++ [r]) rfl]
          simp

theorem fetchAllLoop_spec (rows : List (Row α)) (c : Cursor α)
    (acc : List (Row α)) (fuel : Nat)
    (h : c.iterator = some rows) (hf : rows.length < fuel) :
    fetchAllLoop fuel c acc =
      Except.ok (acc ++ rows, { c with iterator := some [] }) := by
  induction rows generalizing c acc fuel with
  | nil =>
      cases fuel with
      | zero => omega
      | succ m =>
          rw [fetchAllLoop, fetchone_of_nil c h]
          simp [Cursor.eta_iterator c [] h]
  | cons r rest ih =>
      cases fuel with
      | zero => omega
      | succ m =>
          have hm : rest.length < m := by
            simp only [List.length_cons] at hf
            omega
          rw [fetchAllLoop, fetchone_of_cons c r rest h]
          dsimp only
          rw [ih { c with iterator := some rest } (acc ++ [r]) m rfl hm]
          simp

theorem fetchall_spec (c : Cursor α) (rows : List (Row α))
    (h : c.iterator = some rows) :
    c.fetchall = Except.ok (rows, { c with iterator := some [] }) := by
  unfold Cursor.fetchall
  rw [h]
  simpa using fetchAllLoop_spec rows c [] (rows.length + 1) h (Nat.lt_succ_self _)

theorem fetchmany_pos_spec (c : Cursor α) (rows : List (Row α)) (n : Int)
    (h : c.iterator = some rows) (hn : 0 < n) :
    c.fetchmany (some n) =
      Except.ok (rows.take n.toNat,
        { c with iterator := some (rows.drop n.toNat) }) := by
  unfold Cursor.fetchmany
  rw [h]
  have hne : n ≠ 0 := by omega
  simpa [hne] using fetchManyLoop_spec n.toNat c rows [] h

theorem fetchmany_default_spec (c : Cursor α) (rows : List (Row α))
    (h : c.iterator = some rows) :
    c.fetchmany none =
      Except.ok (rows.take c.arraysize.toNat,
        { c with iterator := some (rows.drop c.arraysize.toNat) }) := by
  unfold Cursor.fetchmany
  rw [h]
  simpa using fetchManyLoop_spec c.arraysize.toNat c rows [] h

theorem execute_ok_state (c : Cursor α) (op : String) (ps : List String)
    (R : List (Row α)) (c1 : Cursor α)
    (h : c.execute op ps = Except.ok (R, c1)) :
    c1 = { c with result := some R, iterator := some R } := by
  unfold Cursor.execute at h
  cases hq : c.runQuery op with
  | error e => rw [hq] at h; simp at h
  | ok result =>
      rw [hq] at h
      simp at h
      obtain ⟨h1, h2⟩ := h
      rw [← h2, h1]

theorem fetchOnes_spec (k : Nat) (c : Cursor α) (rows : List (Row α))
    (h : c.iterator = some rows) :
    fetchOnes k c =
      Except.ok ((rows.take k).map some ++ List.replicate (k - rows.length) none,
        { c with iterator := some (rows.drop k) }) := by
  induction k generalizing c rows with
  | zero => simp [fetchOnes, Cursor.eta_iterator c rows h]
  | succ m ih =>
      cases rows with
      | nil =>
          rw [fetchOnes, fetchone_of_nil c h]
          dsimp only
          rw [ih c [] h]
          simp [List.replicate_succ, Cursor.eta_iterator c [] h]
      | cons r rest =>
          rw [fetchOnes, fetchone_of_cons c r rest h]
          dsimp only
          rw [ih { c with iterator := some rest } rest rfl]
          simp [Nat.succ_sub_succ]

theorem chunkList_nil (n : Nat) : chunkList n ([] : List β) = [] := by
  rw [chunkList]

theorem chunkList_cons (n : Nat) (x : β) (xs : List β) :
    chunkList n (x :: xs) = ((x :: xs).take n) :: chunkList n (xs.drop (n - 1)) := by
  rw [chunkList]

theorem chunkList_join_aux (n : Nat) (hn : 0 < n) :
    ∀ (N : Nat) (l : List β), l.length ≤ N → (chunkList n l).flatten = l := by
  intro N
  induction N with
  | zero =>
      intro l hl
      have hnil : l = [] := by cases l <;> simp_all
      rw [hnil, chunkList_nil]
      rfl
  | succ M ih =>
      intro l hl
      cases l with
      | nil => rw [chunkList_nil]; rfl
      | cons x xs =>
          rw [chunkList_cons]
          rw [List.flatten_cons]
          rw [ih (xs.drop (n - 1)) (by simp at hl ⊢; omega)]
          cases n with
          | zero => omega
          | succ k =>
              simp only [List.take_succ_cons, Nat.succ_sub_one, List.cons_append]
              rw [List.take_append_drop]

theorem chunkList_join (n : Nat) (hn : 0 < n) (l : List β) :
    (chunkList n l).flatten = l :=
  chunkList_join_aux n hn l.length l le_rfl

theorem chunkList_ne_nil (n : Nat) (x : β) (xs : List β) :
    chunkList n (x :: xs) ≠ [] := by
  rw [chunkList_cons]
  simp

theorem chunkList_eq_nil_iff (n : Nat) (l : List β) :
    chunkList n l = [] ↔ l = [] := by
  cases l with
  | nil => simp [chunkList_nil]
  | cons x xs => simp [chunkList_ne_nil]

theorem chunkList_dropLast_aux (n : Nat) (hn : 0 < n) :
    ∀ (N : Nat) (l : List β), l.length ≤ N →
      ∀ b ∈ (chunkList n l).dropLast, b.length = n := by
  intro N
  induction N with
  | zero =>
      intro l hl b hb
      have hnil : l = [] := by cases l <;> simp_all
      rw [hnil, chunkList_nil] at hb
      simp at hb
  | succ M ih =>
      intro l hl b hb
      cases l with
      | nil => rw [chunkList_nil] at hb; simp at hb
      | cons x xs =>
          rw [chunkList_cons] at hb
          cases hr : chunkList n (xs.drop (n - 1)) with
          | nil => rw [hr] at hb; simp at hb
          | cons B Bs =>
              rw [hr] at hb
              rw [List.dropLast_cons₂] at hb
              cases hb with
              | head =>
                  have hdrop : xs.drop (n - 1) ≠ [] := by
                    intro hd
                    rw [hd, chunkList_nil] at hr
                    cases hr
                  have hxs : n - 1 < xs.length := by
                    by_contra hc
                    exact hdrop (List.drop_eq_nil_of_le (by omega))
                  simp
                  omega
              | tail _ hb2 =>
                  have hlen : (xs.drop (n - 1)).length ≤ M := by
                    simp at hl ⊢
                    omega
                  have := ih (xs.drop (n - 1)) hlen b
                  rw [hr] at this
                  exact this hb2

theorem chunkList_dropLast (n : Nat) (hn : 0 < n) (l : List β) :
    ∀ b ∈ (chunkList n l).dropLast, b.length = n :=
  chunkList_dropLast_aux n hn l.length l le_rfl

theorem chunkList_getLast_aux (n : Nat) (hn : 0 < n) :
    ∀ (N : Nat) (l : List β), l.length ≤ N →
      ∀ b, (chunkList n l).getLast? = some b →
        b.length = (if l.length % n = 0 then n else l.length % n) := by
  intro N
  induction N with
  | zero =>
      intro l hl b hb
      have hnil : l = [] := by cases l <;> simp_all
      rw [hnil, chunkList_nil] at hb
      cases hb
  | succ M ih =>
      intro l hl b hb
      cases l with
      | nil => rw [chunkList_nil] at hb; cases hb
      | cons x xs =>
          rw [chunkList_cons] at hb
          cases hr : chunkList n (xs.drop (n - 1)) with
          | nil =>
              rw [hr] at hb
              simp at hb
              have hdrop : xs.drop (n - 1) = [] := by
                rw [← chunkList_eq_nil_iff n]
                exact hr
              have hxs : xs.length ≤ n - 1 := by
                by_contra hc
                have := List.drop_eq_nil_iff.mp hdrop
                omega
              have hlen : b.length = (x :: xs).length := by
                rw [← hb]
                simp
                omega
              rw [hlen]
              simp only [List.length_cons]
              by_cases hLn : xs.length + 1 = n
              · rw [hLn]
                simp
              · have hlt : xs.length + 1 < n := by omega
                rw [Nat.mod_eq_of_lt hlt]
                simp
          | cons B Bs =>
              rw [hr] at hb
              rw [List.getLast?_cons_cons] at hb
              have hdrop : xs.drop (n - 1) ≠ [] := by
                intro hd
                rw [hd, chunkList_nil] at hr
                cases hr
              have hxs : n - 1 < xs.length := by
                by_contra hc
                exact hdrop (List.drop_eq_nil_of_le (by omega))
              have hlen : (xs.drop (n - 1)).length ≤ M := by
                simp at hl ⊢
                omega
              have hrec := ih (xs.drop (n - 1)) hlen b
              rw [hr] at hrec
              have hb2 := hrec hb
              have hL : (xs.drop (n - 1)).length = xs.length + 1 - n := by
                simp
                omega
              have hmod : (xs.length + 1) % n = (xs.length + 1 - n) % n := by
                have hsplit : xs.length + 1 = n + (xs.length + 1 - n) := by omega
                rw [hsplit, Nat.add_mod_left]
                congr 1
                omega
              rw [hb2, hL]
              simp only [List.length_cons]
              rw [hmod]

theorem chunkList_getLast (n : Nat) (hn : 0 < n) (l : List β) (b : List β)
    (hb : (chunkList n l).getLast? = some b) :
    b.length = (if l.length % n = 0 then n else l.length % n) :=
  chunkList_getLast_aux n hn l.length l le_rfl b hb

theorem fetchBatchesAux_spec (n : Int) (hn : 0 < n) :
    ∀ (fuel : Nat) (c : Cursor α) (rows : List (Row α)),
      c.iterator = some rows → rows.length < fuel →
      fetchBatchesAux fuel n c = chunkList n.toNat rows := by
  intro fuel
  induction fuel with
  | zero => intro c rows h hf; omega
  | succ m ih =>
      intro c rows h hf
      rw [fetchBatchesAux, fetchmany_pos_spec c rows n h hn]
      cases rows with
      | nil => simp [chunkList_nil]
      | cons x xs =>
          obtain ⟨k, hk⟩ : ∃ k, n.toNat = k + 1 := ⟨n.toNat - 1, by omega⟩
          rw [hk, List.take_succ_cons]
          dsimp only
          have hm : (List.drop (k + 1) (x :: xs)).length < m := by
            simp only [List.length_cons] at hf
            simp
            omega
          rw [ih { c with iterator := some (List.drop (k + 1) (x :: xs)) }
                (List.drop (k + 1) (x :: xs)) rfl hm]
          rw [chunkList_cons, hk, List.take_succ_cons]
          simp

theorem fetchBatches_spec (n : Int) (hn : 0 < n) (c : Cursor α)
    (rows : List (Row α)) (h : c.iterator = some rows) :
    fetchBatches n c = chunkList n.toNat rows := by
  unfold fetchBatches iterLen
  rw [h]
  exact fetchBatchesAux_spec n hn (rows.length + 1) c rows h (Nat.lt_succ_self _)

theorem classify_foldl_records (recs : List (Record α)) (acc : List (Row α)) :
    recs.foldl
      (fun responses resPart =>
        if resPart.kind = some "upsolver_query_response" then
          responses ++ [Row.payload resPart.message]
        else
          responses ++ [Row.raw resPart]) acc
    = acc ++ recs.map classifyRecord := by
  induction recs generalizing acc with
  | nil => simp
  | cons r rs ih =>
      rw [List.foldl_cons, ih]
      by_cases hk : r.kind = some "upsolver_query_response" <;>
        simp [classifyRecord, hk]

theorem classify_foldl_pages (pages : List (List (Record α)))
    (acc : List (Row α)) :
    pages.foldl
      (fun responses res =>
        res.foldl
          (fun responses resPart =>
            if resPart.kind = some "upsolver_query_response" then
              responses ++ [Row.payload resPart.message]
            else
              responses ++ [Row.raw resPart])
          responses) acc
    = acc ++ pages.flatten.map classifyRecord := by
  induction pages generalizing acc with
  | nil => simp
  | cons p ps ih =>
      rw [List.foldl_cons, classify_foldl_records, ih]
      simp

/-- C1: on an open connection, `Connection.query` returns the page
sequence flattened in page order and record order within each page, each
record whose `kind` discriminator equals `"upsolver_query_response"`
replaced by its `message` payload and every other record unchanged; no
record is reordered, dropped, or duplicated. -/
theorem query_flattens_and_classifies (conn : Connection α)
    (api : String → Nat → List (List (Record α))) (command : String)
    (h : conn.api = some api) :
    conn.query command =
      Except.ok (((api command conn.timeoutSec).flatten).map classifyRecord) := by
  unfold Connection.query
  rw [h]
  dsimp only
  rw [classify_foldl_pages]
  simp

theorem query_flattens_and_classifies_witness :
    connEx.query "select 1" =
      Except.ok (((apiEx "select 1" connEx.timeoutSec).flatten).map classifyRecord) :=
  query_flattens_and_classifies connEx apiEx "select 1" rfl

/-- C2: for every row sequence `R` returned by a successful
`Cursor.execute`, an immediate `fetchall` returns exactly `R` in order, and
a second `fetchall` on the resulting cursor returns the empty sequence. -/
theorem fetchall_after_execute (c : Cursor α) (op : String) (ps : List String)
    (R : List (Row α)) (c1 : Cursor α)
    (h : c.execute op ps = Except.ok (R, c1)) :
    ∃ c2, c1.fetchall = Except.ok (R, c2) ∧
      ∃ c3, c2.fetchall = Except.ok (([] : List (Row α)), c3) := by
  have h1 := execute_ok_state c op ps R c1 h
  have hit : c1.iterator = some R := by rw [h1]
  refine ⟨{ c1 with iterator := some [] }, fetchall_spec c1 R hit, ?_⟩
  refine ⟨{ c1 with iterator := some [] }, ?_⟩
  simpa using fetchall_spec { c1 with iterator := some [] } [] rfl

theorem fetchall_after_execute_witness :
    ∃ c2, cur1Ex.fetchall = Except.ok (rowsEx, c2) ∧
      ∃ c3, c2.fetchall = Except.ok (([] : List (Row Nat)), c3) :=
  fetchall_after_execute curEx "select 1" [] rowsEx cur1Ex rfl

/-- C3: for every positive `n` and every row sequence `R` produced by
`Cursor.execute`, repeatedly calling `fetchmany n` until an empty result
yields batches whose concatenation is `R`, with every non-final batch of
exactly `n` rows and the final batch of `R.length % n` rows (or `n` when
`n` divides `R.length`); a `fetchmany` on an exhausted iterator returns the
empty list rather than an error. -/
theorem fetchmany_batches_partition (n : Int) (c : Cursor α) (op : String)
    (ps : List String) (R : List (Row α)) (c1 cE : Cursor α)
    (hn : 0 < n) (h : c.execute op ps = Except.ok (R, c1))
    (hE : cE.iterator = some []) :
    (fetchBatches n c1).flatten = R ∧
    (∀ b ∈ (fetchBatches n c1).dropLast, b.length = n.toNat) ∧
    (∀ b, (fetchBatches n c1).getLast? = some b →
      b.length = (if R.length % n.toNat = 0 then n.toNat else R.length % n.toNat)) ∧
    cE.fetchmany (some n) = Except.ok (([] : List (Row α)), cE) := by
  have h1 := execute_ok_state c op ps R c1 h
  have hit : c1.iterator = some R := by rw [h1]
  have hbat := fetchBatches_spec n hn c1 R hit
  have hnt : 0 < n.toNat := by omega
  refine ⟨?_, ?_, ?_, ?_⟩
  · rw [hbat]
    exact chunkList_join n.toNat hnt R
  · rw [hbat]
    exact chunkList_dropLast n.toNat hnt R
  · rw [hbat]
    intro b hb
    exact chunkList_getLast n.toNat hnt R b hb
  · simpa [Cursor.eta_iterator cE [] hE] using fetchmany_pos_spec cE [] n hE hn

theorem fetchmany_batches_partition_witness :
    (0 : Int) < 2 ∧
    ((fetchBatches 2 cur1Ex).flatten = rowsEx ∧
     (∀ b ∈ (fetchBatches 2 cur1Ex).dropLast, b.length = (2 : Int).toNat) ∧
     (∀ b, (fetchBatches 2 cur1Ex).getLast? = some b →
       b.length = (if rowsEx.length % (2 : Int).toNat = 0 then (2 : Int).toNat
         else rowsEx.length % (2 : Int).toNat)) ∧
     curDrainedEx.fetchmany (some 2) =
       Except.ok (([] : List (Row Nat)), curDrainedEx)) :=
  ⟨by decide,
   fetchmany_batches_partition 2 curEx "select 1" [] rowsEx cur1Ex curDrainedEx
     (by decide) rfl rfl⟩

/-- C4: for every row sequence `R` produced by `Cursor.execute`, calling
`fetchone` `R.length + 1` times returns each row of `R` exactly once in
order followed by `none`; exhaustion alone never raises. -/
theorem fetchone_drains_then_none (c : Cursor α) (op : String)
    (ps : List String) (R : List (Row α)) (c1 : Cursor α)
    (h : c.execute op ps = Except.ok (R, c1)) :
    ∃ c2, fetchOnes (R.length + 1) c1 =
      Except.ok (R.map some ++ [none], c2) := by
  have h1 := execute_ok_state c op ps R c1 h
  have hit : c1.iterator = some R := by rw [h1]
  refine ⟨{ c1 with iterator := some (R.drop (R.length + 1)) }, ?_⟩
  rw [fetchOnes_spec (R.length + 1) c1 R hit]
  rw [List.take_of_length_le (by omega)]
  have hrep : R.length + 1 - R.length = 1 := by omega
  rw [hrep]
  rfl

theorem fetchone_drains_then_none_witness :
    ∃ c2, fetchOnes (rowsEx.length + 1) cur1Ex =
      Except.ok (rowsEx.map some ++ [none], c2) :=
  fetchone_drains_then_none curEx "select 1" [] rowsEx cur1Ex rfl

/-- C5 counterexample: on a concrete closed connection, a second `close`
and a `commit` return normally instead of failing with the interface
error, `rollback` fails with the unsupported-operation error instead of
the interface error, and on a concrete closed cursor that had executed
before closing, `fetchone` succeeds and returns a row. -/
theorem close_guard_counterexample :
    (connEx.close).close = connEx.close ∧
    (connEx.close).commit = connEx.close ∧
    (connEx.close).rollback = Except.error DBError.notSupportedError ∧
    curClosedEx.fetchone =
      Except.ok (some (Row.payload (some 1)),
        { curClosedEx with iterator := some [Row.raw recB, Row.raw recC] }) :=
  ⟨rfl, rfl, rfl, rfl⟩

/-- C5 amended: after `close()`, `Connection.cursor` and `Connection.query`
fail with the interface error and `Cursor.execute` fails with the
interface error, but a second `Connection.close` and `Connection.commit`
return normally (silent no-ops), `Connection.rollback` fails with the
unsupported-operation error, and the cursor's fetch path is untouched by
`close`: when an `execute` preceded the close, `fetchone` still succeeds. -/
theorem close_guard_partial (conn : Connection α) (command : String)
    (op : String) (ps : List String) (c c1 : Cursor α) (rows : List (Row α))
    (hcl : c.closed = false) (hclose : c.close = Except.ok c1)
    (hit : c.iterator = some rows) :
    (conn.close).cursor = Except.error DBError.interfaceError ∧
    (conn.close).query command = Except.error DBError.interfaceError ∧
    (conn.close).close = conn.close ∧
    (conn.close).commit = conn.close ∧
    (conn.close).rollback = Except.error DBError.notSupportedError ∧
    c1.execute op ps = Except.error DBError.interfaceError ∧
    c1.iterator = some rows ∧
    (∃ r c2, c1.fetchone = Except.ok (r, c2)) := by
  have hc1 : c1 = { c with connection := none, closed := true } := by
    unfold Cursor.close transactionFreeContextClose at hclose
    simp [hcl] at hclose
    exact hclose.symm
  refine ⟨rfl, rfl, rfl, rfl, rfl, ?_, ?_, ?_⟩
  · rw [hc1]
    rfl
  · rw [hc1]
    exact hit
  · rw [hc1]
    cases rows with
    | nil => exact ⟨none, _, fetchone_of_nil _ hit⟩
    | cons r rest => exact ⟨some r, _, fetchone_of_cons _ r rest hit⟩

theorem close_guard_partial_witness :
    cur1Ex.closed = false ∧ cur1Ex.close = Except.ok curClosedEx ∧
    cur1Ex.iterator = some rowsEx ∧
    ((connEx.close).cursor = Except.error DBError.interfaceError ∧
     (connEx.close).query "select 1" = Except.error DBError.interfaceError ∧
     (connEx.close).close = connEx.close ∧
     (connEx.close).commit = connEx.close ∧
     (connEx.close).rollback = Except.error DBError.notSupportedError ∧
     curClosedEx.execute "select 1" [] = Except.error DBError.interfaceError ∧
     curClosedEx.iterator = some rowsEx ∧
     (∃ r c2, curClosedEx.fetchone = Except.ok (r, c2))) :=
  ⟨rfl, rfl, rfl,
   close_guard_partial connEx "select 1" "select 1" [] cur1Ex curClosedEx
     rowsEx rfl rfl rfl⟩

/-- C6 counterexample: on a concrete cursor, `execute` with a non-empty
`parameters` argument succeeds and returns the rows instead of failing
with the unsupported-operation error. -/
theorem execute_parameters_counterexample :
    curEx.execute "select 1" ["bound-value"] = Except.ok (rowsEx, cur1Ex) :=
  rfl

/-- C6 amended: `Cursor.execute` ignores its `parameters` argument
entirely: executing with any parameters, empty or not, is identical to
executing without them, and no unsupported-operation error is ever raised
on account of parameters. -/
theorem execute_ignores_parameters (c : Cursor α) (op : String)
    (ps qs : List String) : c.execute op ps = c.execute op qs :=
  rfl

/-- C7 counterexample: on a concrete cursor whose `arraysize` reads `1`,
assigning `0` raises no state error, and the getter afterwards returns `0`
rather than the prior value. -/
theorem arraysize_setter_counterexample :
    curEx.arraysize = 1 ∧ (curEx.setArraysize 0).arraysize = 0 :=
  ⟨rfl, rfl⟩

/-- C7 amended: assigning any integer, including `0` or a negative value,
to `arraysize` succeeds and overwrites the prior value (the setter has no
validation); after assigning a positive `k`, a `fetchmany` call without an
explicit size returns at most `k` rows. -/
theorem arraysize_setter_unchecked (c : Cursor α) (v k : Int)
    (rows : List (Row α)) (_hk : 0 < k) (hit : c.iterator = some rows) :
    (c.setArraysize v).arraysize = v ∧
    (∃ b c2, (c.setArraysize k).fetchmany none = Except.ok (b, c2) ∧
      b.length ≤ k.toNat) := by
  constructor
  · rfl
  · have hit2 : (c.setArraysize k).iterator = some rows := hit
    have hd := fetchmany_default_spec (c.setArraysize k) rows hit2
    have harr : (c.setArraysize k).arraysize = k := rfl
    rw [harr] at hd
    refine ⟨_, _, hd, ?_⟩
    rw [List.length_take]
    omega

theorem arraysize_setter_unchecked_witness :
    (0 : Int) < 2 ∧ cur1Ex.iterator = some rowsEx ∧
    ((cur1Ex.setArraysize (-5)).arraysize = -5 ∧
     (∃ b c2, (cur1Ex.setArraysize 2).fetchmany none = Except.ok (b, c2) ∧
       b.length ≤ (2 : Int).toNat)) :=
  ⟨by decide, rfl,
   arraysize_setter_unchecked cur1Ex (-5) 2 rowsEx (by decide) rfl⟩

/-- C8 counterexample: the `pep249` variant's `rollback`, on a concrete
connection, returns normally (silent no-op) instead of failing with the
unsupported-operation error. -/
theorem rollback_counterexample :
    Pep249.Connection.rollback { token := "tok", apiUrl := "url" } =
      Except.ok () :=
  rfl

/-- C8 amended: `Connection.rollback` always fails with the
unsupported-operation error in the `upsolver` variant, but in the `pep249`
variant it returns normally as a silent no-op. -/
theorem rollback_variants :
    (∀ (β : Type) (conn : Connection β),
        conn.rollback = Except.error DBError.notSupportedError) ∧
    (∀ conn : Pep249.Connection, conn.rollback = Except.ok ()) :=
  ⟨fun _ _ => rfl, fun _ => rfl⟩

/-- C9: `rowcount` is `-1` on a freshly created cursor before any
successful `execute`, and equals the length of the row sequence `R`
immediately after an `execute` that returned `R`. -/
theorem rowcount_before_and_after (conn : Connection α) (c0 : Cursor α)
    (c : Cursor α) (op : String) (ps : List String) (R : List (Row α))
    (c1 : Cursor α) (h0 : conn.cursor = Except.ok c0)
    (h : c.execute op ps = Except.ok (R, c1)) :
    c0.rowcount = -1 ∧ c1.rowcount = R.length := by
  constructor
  · unfold Connection.cursor at h0
    cases ha : conn.api with
    | none => rw [ha] at h0; simp at h0
    | some api =>
        rw [ha] at h0
        simp at h0
        rw [← h0]
        rfl
  · have h1 := execute_ok_state c op ps R c1 h
    rw [h1]
    rfl

theorem rowcount_before_and_after_witness :
    curEx.rowcount = -1 ∧ cur1Ex.rowcount = rowsEx.length :=
  rowcount_before_and_after connEx curEx curEx "select 1" [] rowsEx cur1Ex
    rfl rfl

/-- C10: `fetchmany` with an explicit size of `0` does not produce an
empty batch by way of the size: because the size argument is tested for
falsiness, `fetchmany (some 0)` behaves exactly as a call without a size,
returning up to `arraysize` rows; with rows remaining and a positive
`arraysize` the batch is non-empty. -/
theorem fetchmany_zero_falls_back (c : Cursor α) (rows : List (Row α))
    (hit : c.iterator = some rows) (hne : rows ≠ []) (ha : 0 < c.arraysize) :
    c.fetchmany (some 0) = c.fetchmany none ∧
    (∃ b c2, c.fetchmany (some 0) = Except.ok (b, c2) ∧ b ≠ [] ∧
      b.length ≤ c.arraysize.toNat) := by
  have heq : c.fetchmany (some 0) = c.fetchmany none := by
    unfold Cursor.fetchmany
    cases c.iterator <;> simp
  refine ⟨heq, ?_⟩
  rw [heq]
  have hd := fetchmany_default_spec c rows hit
  refine ⟨_, _, hd, ?_, ?_⟩
  · cases rows with
    | nil => exact absurd rfl hne
    | cons x xs =>
        obtain ⟨k, hk⟩ : ∃ k, c.arraysize.toNat = k + 1 :=
          ⟨c.arraysize.toNat - 1, by omega⟩
        rw [hk, List.take_succ_cons]
        simp
  · rw [List.length_take]
    omega

theorem fetchmany_zero_falls_back_witness :
    cur1Ex.iterator = some rowsEx ∧ rowsEx ≠ [] ∧
    (0 : Int) < cur1Ex.arraysize ∧
    (cur1Ex.fetchmany (some 0) = cur1Ex.fetchmany none ∧
     (∃ b c2, cur1Ex.fetchmany (some 0) = Except.ok (b, c2) ∧ b ≠ [] ∧
       b.length ≤ cur1Ex.arraysize.toNat)) :=
  ⟨rfl, by decide, by decide,
   fetchmany_zero_falls_back cur1Ex rowsEx rfl (by decide) (by decide)⟩

end Upsolver
